import Mathlib

/-!
Verification of the manufacturing-reliability-dashboard repository
(`src/manufacturing_dashboard.py`) against its natural-language
specification.

The file has three parts:

1. A shallow embedding of the executed dashboard code: the reliability
   value actually computed in tab3 (lines 89-95), the availability
   classification (line 107), the advice classification of tab4
   (lines 162-173), the per-machine bar-chart values (line 115), and the
   constraints enforced by the sidebar input widgets (lines 28-34, 61, 74).
   Python floats are embedded as exact rationals.

2. A model of the reliability computation engine.  The source never
   executes the documented closed-form formulas (they appear only inside
   `st.markdown` documentation strings), so the engine is modelled from
   the spec (section 4.1), with the uniform variant's scalar formulas
   taken from the source's Model I calculation-steps markdown
   (lines 129-142).

3. Theorems settling the claims, with witnesses for the theorems that
   carry hypotheses.
-/

namespace MfgDash

/-! ### Part 1: embedding of the executed dashboard code -/

/-- The two entries of the sidebar model-type selectbox (line 21-24). -/
inductive ModelType where
  | modelI
  | modelII
deriving DecidableEq

/-- Lines 89-95 of the source: the reliability value actually computed and
displayed.  In the Model I branch the code binds `p = 0.95` and returns
`p ** n_machines`; in the Model II branch it binds `p_avg = 0.95` and
returns `p_avg ** n_machines`.  The slider values `p_common` (line 61) and
`p_sliders` (line 74) are in scope in the program but are not read by this
computation; they are kept as arguments to make that visible. -/
def system_reliability (model_type : ModelType) (p_common : ℚ)
    (p_sliders : List ℚ) (n_machines : ℕ) : ℚ :=
  match model_type with
  | .modelI =>
      let p : ℚ := 95 / 100
      p ^ n_machines
  | .modelII =>
      let p_avg : ℚ := 95 / 100
      p_avg ^ n_machines

/-- Line 107 of the source: the availability grade shown in tab3. -/
def availability (r : ℚ) : String :=
  if r > 9 / 10 then "高" else if r > 7 / 10 then "中等" else "低"

/-- The three guidance branches of tab4 (lines 162-173). -/
inductive Advice where
  | success
  | warning
  | error
deriving DecidableEq

/-- Lines 162-173 of the source: which guidance branch tab4 renders. -/
def advice (r : ℚ) : Advice :=
  if r > 9 / 10 then .success else if r > 7 / 10 then .warning else .error

/-- Line 115 of the source: the bar-chart values
`[system_reliability * (0.9 + 0.1*i/n_machines) for i in range(n_machines)]`. -/
def reliability_values (sysR : ℚ) (n_machines : ℕ) : List ℚ :=
  (List.range n_machines).map fun i : ℕ =>
    sysR * (9 / 10 + 1 / 10 * (i : ℚ) / (n_machines : ℚ))

/-- The whole chart pipeline of tab3: slider values flow (only nominally)
into `system_reliability`, whose output feeds `reliability_values`. -/
def chart_values (model_type : ModelType) (p_common : ℚ)
    (p_sliders : List ℚ) (n_machines : ℕ) : List ℚ :=
  reliability_values (system_reliability model_type p_common p_sliders n_machines)
    n_machines

/-- The constraints the sidebar widgets enforce on user input:
`demand` has `min_value=1` (line 28), `n_machines` has `min_value=1`
(line 29), `r_machine` has `min_value=2, max_value=n_machines` (line 33),
`k_machines` has `min_value=0, max_value=r_machine-1` (line 34), and every
probability slider has range `[0.01, 1.0]` (lines 61 and 74, with one
slider per machine in Model II). -/
def widgetConstructible (d : ℚ) (n r k : ℕ) (p_common : ℚ)
    (p_sliders : List ℚ) : Prop :=
  1 ≤ d ∧ 1 ≤ n ∧ 2 ≤ r ∧ r ≤ n ∧ k ≤ r - 1 ∧
    (1 / 100 ≤ p_common ∧ p_common ≤ 1) ∧
    p_sliders.length = n ∧ ∀ x ∈ p_sliders, 1 / 100 ≤ x ∧ x ≤ 1

/-! ### Part 2: the reliability computation engine

Modelled from the spec: the source's ~176 lines are presentation code; the
closed-form engine of spec section 4.1 (`compute : NetworkConfig →
ReliabilityReport | Error`) is never executed in `src/`, its formulas
appearing only in the `st.markdown` documentation strings of tab4
(lines 129-157).  The definitions below therefore follow the spec's words,
with the uniform-variant scalar formulas additionally matching the
source's Model I markdown. -/

/-- Modelled from the spec (section 3, NetworkConfig): machine count `n`,
demand `d`, rework end index `r`, rework start offset `k` (rework
sub-range `[r-k, r]`), and the per-machine success-probability vector
`p[1..n]` (Heterogeneous variant; the Uniform variant broadcasts a scalar). -/
structure NetworkConfig where
  n : ℕ
  d : ℚ
  r : ℕ
  k : ℕ
  p : List ℚ
deriving DecidableEq

/-- Modelled from the spec (section 7): the engine's error taxonomy. -/
inductive EngineError where
  | invalidConfiguration (field : String)
  | degenerateNetwork
  | capacityExceeded (machine : ℕ)
deriving DecidableEq

/-- Modelled from the spec (section 3, ReliabilityReport): required input
quantity `I`, general-path flows `f_G[1..n]`, rework-path flows
`f_R[1..n]`, total loads `l[1..n]`, the minimum capacity vector (present
only when a capacity lattice was supplied), and the system reliability
`R_d` — the series-probability fallback value of spec section 4.1 step 5,
since no capacity-probability table is part of the repository. -/
structure ReliabilityReport where
  inputQty : ℚ
  fG : List ℚ
  fR : List ℚ
  load : List ℚ
  capVec : Option (List ℚ)
  Rd : ℚ
deriving DecidableEq

/-- One-indexed access to the probability vector: `prob p i` is `p[i]`
for `1 ≤ i ≤ length p` (out-of-range indices give the neutral factor 1;
validation rules them out). -/
def prob (p : List ℚ) (i : ℕ) : ℚ :=
  p.getD (i - 1) 1

/-- `prodRange p a b = P(a,b) = ∏_{i=a}^{b} p[i]`, the empty product being 1
when `a > b` (spec section 4.1 step 1). -/
def prodRange (p : List ℚ) (a b : ℕ) : ℚ :=
  ((List.range' a (b + 1 - a)).map fun i => prob p i).prod

/-- The denominator of the required-input-quantity formula
(spec section 4.1 step 2): `P(1,n) + P(1,r-1) * q[r] * P(r-k,n)`. -/
def denom (cfg : NetworkConfig) : ℚ :=
  prodRange cfg.p 1 cfg.n +
    prodRange cfg.p 1 (cfg.r - 1) * (1 - prob cfg.p cfg.r) *
      prodRange cfg.p (cfg.r - cfg.k) cfg.n

/-- Required input quantity `I = d / denom` (spec section 4.1 step 2). -/
def inputQty (cfg : NetworkConfig) : ℚ :=
  cfg.d / denom cfg

/-- General-path flow into machine `i`: `f_G[i] = I * P(1, i-1)`
(spec section 4.1 step 3). -/
def fGval (cfg : NetworkConfig) (i : ℕ) : ℚ :=
  inputQty cfg * prodRange cfg.p 1 (i - 1)

/-- Rework-path flow into machine `i`:
`f_R[i] = I * P(1, r-1) * q[r] * P(r-k, i-1)` if `i ≥ r-k`, else 0
(spec section 4.1 step 3). -/
def fRval (cfg : NetworkConfig) (i : ℕ) : ℚ :=
  if cfg.r - cfg.k ≤ i then
    inputQty cfg * prodRange cfg.p 1 (cfg.r - 1) * (1 - prob cfg.p cfg.r) *
      prodRange cfg.p (cfg.r - cfg.k) (i - 1)
  else 0

/-- Total load on machine `i`: `l[i] = f_G[i] + f_R[i]`
(spec section 4.1 step 3). -/
def loadval (cfg : NetworkConfig) (i : ℕ) : ℚ :=
  fGval cfg i + fRval cfg i

/-- The general-path flow vector `f_G[1..n]`. -/
def fGs (cfg : NetworkConfig) : List ℚ :=
  (List.range cfg.n).map fun j => fGval cfg (j + 1)

/-- The rework-path flow vector `f_R[1..n]`. -/
def fRs (cfg : NetworkConfig) : List ℚ :=
  (List.range cfg.n).map fun j => fRval cfg (j + 1)

/-- The total-load vector `l[1..n]`. -/
def loads (cfg : NetworkConfig) : List ℚ :=
  (List.range cfg.n).map fun j => loadval cfg (j + 1)

/-- Modelled from the spec (section 4.1 step 4): for machine `i` (1-based,
head of `ls`), the smallest offered capacity level at least the load, the
lattice rows being ordered; `Except.error i` names the machine for which
no offered level suffices (`CapacityExceeded`). -/
def pickLevels (i : ℕ) (latt : List (List ℚ)) : List ℚ → Except ℕ (List ℚ)
  | [] => .ok []
  | l :: ls =>
    match (latt.headD []).find? (fun y => decide (l ≤ y)) with
    | none => .error i
    | some y => (pickLevels (i + 1) latt.tail ls).map fun ys => y :: ys

/-- The report assembled for a validated configuration (spec section 4.1
steps 2-5); `yv` is the capacity vector when a lattice was supplied. -/
def mkReport (cfg : NetworkConfig) (yv : Option (List ℚ)) : ReliabilityReport :=
  ⟨inputQty cfg, fGs cfg, fRs cfg, loads cfg, yv, prodRange cfg.p 1 cfg.n⟩

/-- Modelled from the spec (sections 4.1 and 7): the engine entry point
`compute(NetworkConfig, optional CapacityLattice) → ReliabilityReport | Error`.
Precondition violations fail with `InvalidConfiguration` naming the
offending field; a non-positive denominator fails with `DegenerateNetwork`;
an insufficient capacity lattice fails with `CapacityExceeded` naming the
machine.  No capacity-probability table exists in the repository, so `R_d`
is the series-probability fallback of step 5. -/
def compute (cfg : NetworkConfig) (lattice : Option (List (List ℚ))) :
    Except EngineError ReliabilityReport :=
  if cfg.n < 1 then .error (.invalidConfiguration "n")
  else if cfg.d ≤ 0 then .error (.invalidConfiguration "d")
  else if cfg.p.length ≠ cfg.n then .error (.invalidConfiguration "p")
  else if ¬ (∀ x ∈ cfg.p, 0 < x ∧ x ≤ 1) then .error (.invalidConfiguration "p")
  else if ¬ (2 ≤ cfg.r ∧ cfg.r ≤ cfg.n) then .error (.invalidConfiguration "r")
  else if ¬ (cfg.k ≤ cfg.r - 1) then .error (.invalidConfiguration "k")
  else if denom cfg ≤ 0 then .error .degenerateNetwork
  else
    match lattice with
    | none => .ok (mkReport cfg none)
    | some latt =>
      match pickLevels 1 latt (loads cfg) with
      | .error i => .error (.capacityExceeded i)
      | .ok ys => .ok (mkReport cfg (some ys))

/-- The spec's preconditions on a configuration (section 4.1): `n ≥ 1`,
`0 < d`, probability vector of length `n` with entries in `(0, 1]`,
`2 ≤ r ≤ n` and `0 ≤ k ≤ r-1` (the lower bound on `k` is inherent to `ℕ`). -/
abbrev validCfg (cfg : NetworkConfig) : Prop :=
  1 ≤ cfg.n ∧ 0 < cfg.d ∧ cfg.p.length = cfg.n ∧
    (∀ x ∈ cfg.p, 0 < x ∧ x ≤ 1) ∧ 2 ≤ cfg.r ∧ cfg.r ≤ cfg.n ∧
    cfg.k ≤ cfg.r - 1

/-- Uniform-variant denominator, from the source's Model I markdown
(line 131): `p^n + p^(n+k) * q` with `q = 1 - p`. -/
def denomU (n k : ℕ) (p : ℚ) : ℚ :=
  p ^ n + p ^ (n + k) * (1 - p)

/-- Uniform-variant required input quantity (source line 131):
`I = d / (p^n + p^(n+k) * q)`. -/
def inputQtyU (n k : ℕ) (d p : ℚ) : ℚ :=
  d / denomU n k p

/-- Uniform-variant general-path flow (source line 134):
`f_G[i] = I * p^(i-1)`. -/
def fGvalU (n k : ℕ) (d p : ℚ) (i : ℕ) : ℚ :=
  inputQtyU n k d p * p ^ (i - 1)

/-- Uniform-variant rework-path flow (source line 135):
`f_R[i] = I * p^(i+k-1) * q`, guarded by the spec's re-entry condition
`i ≥ r-k` (section 4.1 step 3). -/
def fRvalU (n r k : ℕ) (d p : ℚ) (i : ℕ) : ℚ :=
  if r - k ≤ i then inputQtyU n k d p * p ^ (i + k - 1) * (1 - p) else 0

/-- Uniform-variant total load `l[i] = f_G[i] + f_R[i]` (source line 137). -/
def loadvalU (n r k : ℕ) (d p : ℚ) (i : ℕ) : ℚ :=
  fGvalU n k d p i + fRvalU n r k d p i

/-- Modelled from the spec (section 4.1, "for Uniform, a single scalar `p`
is broadcast to all `n` machines"): the uniform-variant engine, computing
with the scalar closed forms of the source's Model I markdown
(lines 129-142).  Validation and error taxonomy mirror `compute`. -/
def computeUniform (n : ℕ) (d : ℚ) (r k : ℕ) (p : ℚ)
    (lattice : Option (List (List ℚ))) : Except EngineError ReliabilityReport :=
  if n < 1 then .error (.invalidConfiguration "n")
  else if d ≤ 0 then .error (.invalidConfiguration "d")
  else if ¬ (0 < p ∧ p ≤ 1) then .error (.invalidConfiguration "p")
  else if ¬ (2 ≤ r ∧ r ≤ n) then .error (.invalidConfiguration "r")
  else if ¬ (k ≤ r - 1) then .error (.invalidConfiguration "k")
  else if denomU n k p ≤ 0 then .error .degenerateNetwork
  else
    match lattice with
    | none =>
      .ok ⟨inputQtyU n k d p,
        (List.range n).map fun j => fGvalU n k d p (j + 1),
        (List.range n).map fun j => fRvalU n r k d p (j + 1),
        (List.range n).map fun j => loadvalU n r k d p (j + 1),
        none, p ^ n⟩
    | some latt =>
      match pickLevels 1 latt ((List.range n).map fun j => loadvalU n r k d p (j + 1)) with
      | .error i => .error (.capacityExceeded i)
      | .ok ys =>
        .ok ⟨inputQtyU n k d p,
          (List.range n).map fun j => fGvalU n k d p (j + 1),
          (List.range n).map fun j => fRvalU n r k d p (j + 1),
          (List.range n).map fun j => loadvalU n r k d p (j + 1),
          some ys, p ^ n⟩

/-- A configuration broadcasting a scalar probability to all `n` machines
(spec section 4.1, Uniform variant). -/
def uniformCfg (n : ℕ) (d : ℚ) (r k : ℕ) (p : ℚ) : NetworkConfig :=
  ⟨n, d, r, k, List.replicate n p⟩

/-- The configuration of the spec's section 8 scenario: `n=5`, `r=4`, `k=1`,
`d=150`, uniform `p=0.95`. -/
def scenarioCfg : NetworkConfig := ⟨5, 150, 4, 1, List.replicate 5 (19 / 20)⟩

/-- A configuration violating the precondition `r ≤ n` (here `r=6 > n=5`),
as reachable by a caller bypassing the widgets. -/
def badCfg : NetworkConfig := ⟨5, 150, 6, 1, List.replicate 5 (19 / 20)⟩

/-! ### Part 3: helper lemmas -/

instance : DecidableEq (Except EngineError ReliabilityReport) := fun a b =>
  match a, b with
  | .ok x, .ok y => decidable_of_iff (x = y) (by simp)
  | .error x, .error y => decidable_of_iff (x = y) (by simp)
  | .ok _, .error _ => isFalse (by simp)
  | .error _, .ok _ => isFalse (by simp)

lemma list_prod_pos {l : List ℚ} (h : ∀ x ∈ l, 0 < x) : 0 < l.prod := by
  induction l with
  | nil => simp
  | cons a t ih =>
    rw [List.prod_cons]
    exact mul_pos (h a (by simp)) (ih fun x hx => h x (by simp [hx]))

lemma list_prod_nonneg {l : List ℚ} (h : ∀ x ∈ l, 0 ≤ x) : 0 ≤ l.prod := by
  induction l with
  | nil => simp
  | cons a t ih =>
    rw [List.prod_cons]
    exact mul_nonneg (h a (by simp)) (ih fun x hx => h x (by simp [hx]))

lemma list_prod_le_one {l : List ℚ} (h : ∀ x ∈ l, 0 ≤ x ∧ x ≤ 1) :
    l.prod ≤ 1 := by
  induction l with
  | nil => simp
  | cons a t ih =>
    rw [List.prod_cons]
    have ht := ih fun x hx => h x (by simp [hx])
    have ha := h a (by simp)
    have htn : 0 ≤ t.prod := list_prod_nonneg fun x hx => (h x (by simp [hx])).1
    nlinarith

lemma prob_pos {p : List ℚ} (h : ∀ x ∈ p, 0 < x) (i : ℕ) : 0 < prob p i := by
  unfold prob
  rcases lt_or_le (i - 1) p.length with h' | h'
  · rw [List.getD_eq_getElem _ _ h']
    exact h _ (List.getElem_mem h')
  · rw [List.getD_eq_default _ _ h']
    norm_num

lemma prob_nonneg {p : List ℚ} (h : ∀ x ∈ p, 0 < x) (i : ℕ) : 0 ≤ prob p i :=
  le_of_lt (prob_pos h i)

lemma prob_le_one {p : List ℚ} (h : ∀ x ∈ p, x ≤ 1) (i : ℕ) : prob p i ≤ 1 := by
  unfold prob
  rcases lt_or_le (i - 1) p.length with h' | h'
  · rw [List.getD_eq_getElem _ _ h']
    exact h _ (List.getElem_mem h')
  · rw [List.getD_eq_default _ _ h']

lemma prodRange_pos {p : List ℚ} (h : ∀ x ∈ p, 0 < x) (a b : ℕ) :
    0 < prodRange p a b := by
  refine list_prod_pos ?_
  intro x hx
  rcases List.mem_map.mp hx with ⟨i, _, rfl⟩
  exact prob_pos h i

lemma prodRange_nonneg {p : List ℚ} (h : ∀ x ∈ p, 0 < x) (a b : ℕ) :
    0 ≤ prodRange p a b :=
  le_of_lt (prodRange_pos h a b)

lemma prodRange_le_one {p : List ℚ} (h : ∀ x ∈ p, 0 < x ∧ x ≤ 1) (a b : ℕ) :
    prodRange p a b ≤ 1 := by
  refine list_prod_le_one ?_
  intro x hx
  rcases List.mem_map.mp hx with ⟨i, _, rfl⟩
  exact ⟨prob_nonneg (fun y hy => (h y hy).1) i,
    prob_le_one (fun y hy => (h y hy).2) i⟩

lemma denom_pos {cfg : NetworkConfig} (h : validCfg cfg) : 0 < denom cfg := by
  obtain ⟨-, -, -, hp, -, -, -⟩ := h
  have h1 : ∀ x ∈ cfg.p, 0 < x := fun x hx => (hp x hx).1
  refine add_pos_of_pos_of_nonneg (prodRange_pos h1 1 cfg.n) ?_
  have hq : 0 ≤ 1 - prob cfg.p cfg.r :=
    sub_nonneg.mpr (prob_le_one (fun y hy => (hp y hy).2) cfg.r)
  exact mul_nonneg (mul_nonneg (prodRange_nonneg h1 _ _) hq)
    (prodRange_nonneg h1 _ _)

/-- A valid configuration with no capacity lattice always yields the full
report. -/
lemma compute_ok {cfg : NetworkConfig} (h : validCfg cfg) :
    compute cfg none = .ok (mkReport cfg none) := by
  obtain ⟨hn, hd, hlen, hp, hr2, hrn, hk⟩ := h
  unfold compute
  rw [if_neg (by omega), if_neg (not_le.mpr hd), if_neg (by omega),
    if_neg (by simpa using hp), if_neg (by simp [hr2, hrn]),
    if_neg (by omega), if_neg (not_le.mpr (denom_pos ⟨hn, hd, hlen, hp, hr2, hrn, hk⟩))]

/-- A valid configuration never produces `InvalidConfiguration`, for any
capacity lattice. -/
lemma compute_not_invalid {cfg : NetworkConfig} (h : validCfg cfg)
    (lattice : Option (List (List ℚ))) (f : String) :
    compute cfg lattice ≠ .error (.invalidConfiguration f) := by
  obtain ⟨hn, hd, hlen, hp, hr2, hrn, hk⟩ := h
  unfold compute
  rw [if_neg (by omega), if_neg (not_le.mpr hd), if_neg (by omega),
    if_neg (by simpa using hp), if_neg (by simp [hr2, hrn]), if_neg (by omega)]
  by_cases hden : denom cfg ≤ 0
  · rw [if_pos hden]; simp
  · rw [if_neg hden]
    cases lattice with
    | none => simp
    | some latt =>
      cases hpl : pickLevels 1 latt (loads cfg) <;> simp [hpl]

/-- Entry `i` (0-based) of the rework-flow vector is `fRval` at machine
`i+1`. -/
lemma fRs_getD {cfg : NetworkConfig} {i : ℕ} (hi : i < cfg.n) :
    (fRs cfg).getD i 0 = fRval cfg (i + 1) := by
  unfold fRs
  rw [List.getD_eq_getElem _ _ (by simpa using hi), List.getElem_map,
    List.getElem_range]

/-- Over a constant probability vector, `P(a,b)` is a power of the common
probability: `P(a,b) = c ^ (b+1-a)` whenever `1 ≤ a` and `b ≤ n`. -/
lemma prodRange_replicate {n : ℕ} {c : ℚ} {a b : ℕ} (ha : 1 ≤ a) (hb : b ≤ n) :
    prodRange (List.replicate n c) a b = c ^ (b + 1 - a) := by
  unfold prodRange
  rw [List.prod_eq_pow_card _ c, List.length_map, List.length_range']
  intro x hx
  rcases List.mem_map.mp hx with ⟨i, hi, rfl⟩
  obtain ⟨hai, hib⟩ := List.mem_range'_1.mp hi
  unfold prob
  rw [List.getD_eq_getElem _ _ (by simp; omega), List.getElem_replicate]

lemma prob_replicate {n : ℕ} {c : ℚ} {i : ℕ} (h1 : 1 ≤ i) (h2 : i ≤ n) :
    prob (List.replicate n c) i = c := by
  unfold prob
  rw [List.getD_eq_getElem _ _ (by simp; omega), List.getElem_replicate]

section Replicate

variable {n : ℕ} {d : ℚ} {r k : ℕ} {p : ℚ}

lemma denom_replicate (hr2 : 2 ≤ r) (hrn : r ≤ n) (hk : k ≤ r - 1) :
    denom (uniformCfg n d r k p) = denomU n k p := by
  unfold denom denomU uniformCfg
  simp only
  rw [prodRange_replicate (by omega) (by omega),
    prodRange_replicate (by omega) (by omega),
    prodRange_replicate (by omega) (by omega),
    prob_replicate (by omega) (by omega)]
  have e1 : n + 1 - 1 = n := by omega
  rw [e1]
  have : p ^ (r - 1 + 1 - 1) * (1 - p) * p ^ (n + 1 - (r - k)) =
      p ^ (n + k) * (1 - p) := by
    calc p ^ (r - 1 + 1 - 1) * (1 - p) * p ^ (n + 1 - (r - k))
        = p ^ (r - 1 + 1 - 1) * p ^ (n + 1 - (r - k)) * (1 - p) := by ring
      _ = p ^ (r - 1 + 1 - 1 + (n + 1 - (r - k))) * (1 - p) := by rw [pow_add]
      _ = p ^ (n + k) * (1 - p) := by
          rw [show r - 1 + 1 - 1 + (n + 1 - (r - k)) = n + k from by omega]
  rw [this]

lemma inputQty_replicate (hr2 : 2 ≤ r) (hrn : r ≤ n) (hk : k ≤ r - 1) :
    inputQty (uniformCfg n d r k p) = inputQtyU n k d p := by
  unfold inputQty inputQtyU
  rw [denom_replicate hr2 hrn hk]
  rfl

lemma fGval_replicate (hr2 : 2 ≤ r) (hrn : r ≤ n) (hk : k ≤ r - 1) {i : ℕ}
    (hi : i ≤ n) : fGval (uniformCfg n d r k p) i = fGvalU n k d p i := by
  unfold fGval fGvalU
  rw [inputQty_replicate hr2 hrn hk]
  show inputQtyU n k d p * prodRange (List.replicate n p) 1 (i - 1) = _
  rw [prodRange_replicate (by omega) (by omega),
    show i - 1 + 1 - 1 = i - 1 from by omega]

lemma fRval_replicate (hr2 : 2 ≤ r) (hrn : r ≤ n) (hk : k ≤ r - 1) {i : ℕ}
    (hi : i ≤ n) : fRval (uniformCfg n d r k p) i = fRvalU n r k d p i := by
  unfold fRval fRvalU
  show (if r - k ≤ i then _ else (0 : ℚ)) = _
  by_cases hg : r - k ≤ i
  · rw [if_pos hg, if_pos hg, inputQty_replicate hr2 hrn hk]
    show inputQtyU n k d p * prodRange (List.replicate n p) 1 (r - 1) *
        (1 - prob (List.replicate n p) r) *
        prodRange (List.replicate n p) (r - k) (i - 1) = _
    rw [prodRange_replicate (by omega) (by omega),
      prodRange_replicate (by omega) (by omega),
      prob_replicate (by omega) (by omega)]
    calc inputQtyU n k d p * p ^ (r - 1 + 1 - 1) * (1 - p) * p ^ (i - 1 + 1 - (r - k))
        = inputQtyU n k d p * (p ^ (r - 1 + 1 - 1) * p ^ (i - 1 + 1 - (r - k))) * (1 - p) := by
          ring
      _ = inputQtyU n k d p * p ^ (r - 1 + 1 - 1 + (i - 1 + 1 - (r - k))) * (1 - p) := by
          rw [pow_add]
      _ = inputQtyU n k d p * p ^ (i + k - 1) * (1 - p) := by
          rw [show r - 1 + 1 - 1 + (i - 1 + 1 - (r - k)) = i + k - 1 from by omega]
  · rw [if_neg hg, if_neg hg]

lemma loadval_replicate (hr2 : 2 ≤ r) (hrn : r ≤ n) (hk : k ≤ r - 1) {i : ℕ}
    (hi : i ≤ n) : loadval (uniformCfg n d r k p) i = loadvalU n r k d p i := by
  unfold loadval loadvalU
  rw [fGval_replicate hr2 hrn hk hi, fRval_replicate hr2 hrn hk hi]

lemma loads_replicate (hr2 : 2 ≤ r) (hrn : r ≤ n) (hk : k ≤ r - 1) :
    loads (uniformCfg n d r k p) =
      (List.range n).map fun j => loadvalU n r k d p (j + 1) := by
  unfold loads
  show (List.range n).map _ = _
  refine List.map_congr_left fun j hj => ?_
  exact loadval_replicate hr2 hrn hk (by simpa using List.mem_range.mp hj)

lemma mkReport_replicate (hr2 : 2 ≤ r) (hrn : r ≤ n) (hk : k ≤ r - 1)
    (yv : Option (List ℚ)) :
    mkReport (uniformCfg n d r k p) yv =
      ⟨inputQtyU n k d p,
        (List.range n).map fun j => fGvalU n k d p (j + 1),
        (List.range n).map fun j => fRvalU n r k d p (j + 1),
        (List.range n).map fun j => loadvalU n r k d p (j + 1),
        yv, p ^ n⟩ := by
  unfold mkReport fGs fRs
  rw [ReliabilityReport.mk.injEq]
  refine ⟨inputQty_replicate hr2 hrn hk, ?_, ?_, loads_replicate hr2 hrn hk,
    rfl, ?_⟩
  · show (List.range n).map _ = _
    refine List.map_congr_left fun j hj => ?_
    exact fGval_replicate hr2 hrn hk (by simpa using List.mem_range.mp hj)
  · show (List.range n).map _ = _
    refine List.map_congr_left fun j hj => ?_
    exact fRval_replicate hr2 hrn hk (by simpa using List.mem_range.mp hj)
  · show prodRange (List.replicate n p) 1 n = p ^ n
    rw [prodRange_replicate (by omega) (by omega),
      show n + 1 - 1 = n from by omega]

lemma uniformCfg_n : (uniformCfg n d r k p).n = n := rfl

lemma uniformCfg_d : (uniformCfg n d r k p).d = d := rfl

lemma uniformCfg_r : (uniformCfg n d r k p).r = r := rfl

lemma uniformCfg_k : (uniformCfg n d r k p).k = k := rfl

lemma uniformCfg_p : (uniformCfg n d r k p).p = List.replicate n p := rfl

end Replicate

/-- Over a probability vector of the configured length, `P(1,n)` is the
plain product of the vector. -/
lemma prodRange_one_len {p : List ℚ} {n : ℕ} (hlen : p.length = n) :
    prodRange p 1 n = p.prod := by
  unfold prodRange
  refine congrArg List.prod (List.ext_getElem ?_ ?_)
  · rw [List.length_map, List.length_range']; omega
  · intro i h1 h2
    rw [List.getElem_map, List.getElem_range']
    unfold prob
    rw [List.getD_eq_getElem _ _ (by omega)]
    congr 1
    omega

lemma scenario_valid : validCfg scenarioCfg := by
  refine ⟨by norm_num [scenarioCfg], by norm_num [scenarioCfg],
    by simp [scenarioCfg], ?_, by norm_num [scenarioCfg],
    by norm_num [scenarioCfg], by norm_num [scenarioCfg]⟩
  intro x hx
  rw [List.eq_of_mem_replicate (show x ∈ List.replicate 5 (19 / 20 : ℚ) from hx)]
  norm_num

lemma badCfg_not_valid : ¬ validCfg badCfg := by
  simp [validCfg, badCfg]

/-- The exact required input quantity of the scenario configuration:
`150 / (0.95^5 + 0.95^3 * 0.05 * 0.95^3) = 150 / 0.81053553203125`. -/
lemma scenario_inputQty :
    (mkReport scenarioCfg none).inputQty = 192000000000 / 1037485481 := by
  norm_num [mkReport, inputQty, denom, scenarioCfg, prodRange, prob,
    List.range', List.replicate]

lemma widget_example :
    widgetConstructible 150 5 4 1 (19 / 20) (List.replicate 5 (9 / 10)) := by
  refine ⟨by norm_num, by norm_num, by norm_num, by norm_num, by norm_num,
    ⟨by norm_num, by norm_num⟩, by simp, ?_⟩
  intro x hx
  rw [List.eq_of_mem_replicate (show x ∈ List.replicate 5 (9 / 10 : ℚ) from hx)]
  norm_num

/-! ### Part 4: the claims -/

/-- Claim C1, counterexample to the scenario arithmetic: for `n=5`, `r=4`,
`k=1`, `d=150`, uniform `p=0.95`, the engine's required input quantity
differs from the claimed reference value
`150 / (0.95^5 + 0.95^3 * 0.05 * 0.95^2) ≈ 184.62` by more than the stated
tolerance `1e-6`: the formula's `P(r-k,n) = P(3,5)` has three factors, so
the denominator is `0.95^5 + 0.95^3 * 0.05 * 0.95^3` and `I ≈ 185.06`. -/
theorem c1_scenario_counterexample :
    compute scenarioCfg none = .ok (mkReport scenarioCfg none) ∧
    1 / 1000000 < |(mkReport scenarioCfg none).inputQty -
      150 / ((19/20) ^ 5 + (19/20) ^ 3 * (1/20) * (19/20) ^ 2)| := by
  refine ⟨compute_ok scenario_valid, ?_⟩
  rw [scenario_inputQty, abs_of_pos (by norm_num)]
  norm_num

/-- Claim C1 (amended): for every valid configuration, `compute` returns the
required input quantity `I = d / (P(1,n) + P(1,r-1) * q[r] * P(r-k,n))`;
in particular, for `n=5`, `r=4`, `k=1`, `d=150` and uniform `p=0.95`, the
output `I` equals `150 / (0.95^5 + 0.95^3 * 0.05 * 0.95^3)`
(approximately 185.06) to within tolerance `1e-6`. -/
theorem c1_required_input_quantity :
    (∀ cfg : NetworkConfig, validCfg cfg → ∃ rep, compute cfg none = .ok rep ∧
      rep.inputQty = cfg.d / (prodRange cfg.p 1 cfg.n +
        prodRange cfg.p 1 (cfg.r - 1) * (1 - prob cfg.p cfg.r) *
        prodRange cfg.p (cfg.r - cfg.k) cfg.n)) ∧
    (∃ rep, compute scenarioCfg none = .ok rep ∧
      |rep.inputQty - 150 / ((19/20) ^ 5 + (19/20) ^ 3 * (1/20) * (19/20) ^ 3)|
        < 1 / 1000000) := by
  constructor
  · intro cfg h
    exact ⟨mkReport cfg none, compute_ok h, rfl⟩
  · refine ⟨mkReport scenarioCfg none, compute_ok scenario_valid, ?_⟩
    rw [scenario_inputQty,
      show (192000000000 : ℚ) / 1037485481 -
        150 / ((19/20) ^ 5 + (19/20) ^ 3 * (1/20) * (19/20) ^ 3) = 0 by norm_num,
      abs_zero]
    norm_num

/-- Witness for C1: the scenario configuration is valid and the general
formula applies to it. -/
theorem c1_required_input_quantity_witness : validCfg scenarioCfg ∧
    (∃ rep, compute scenarioCfg none = .ok rep ∧
      rep.inputQty = scenarioCfg.d / (prodRange scenarioCfg.p 1 scenarioCfg.n +
        prodRange scenarioCfg.p 1 (scenarioCfg.r - 1) *
          (1 - prob scenarioCfg.p scenarioCfg.r) *
        prodRange scenarioCfg.p (scenarioCfg.r - scenarioCfg.k) scenarioCfg.n)) :=
  ⟨scenario_valid, c1_required_input_quantity.1 scenarioCfg scenario_valid⟩

/-- Claim C2: for every configuration the system reliability value computed
by the dashboard (source lines 89-95) lies in the closed interval [0,1]. -/
theorem c2_reliability_in_unit_interval (m : ModelType) (pc : ℚ)
    (ps : List ℚ) (n : ℕ) :
    0 ≤ system_reliability m pc ps n ∧ system_reliability m pc ps n ≤ 1 := by
  cases m <;>
    exact ⟨pow_nonneg (by norm_num) n, pow_le_one₀ (by norm_num) (by norm_num)⟩

/-- Claim C3: for every demand, machine count, rework parameters and scalar
probability, the Uniform-variant computation (Model I scalar formulas)
returns the same `ReliabilityReport` (or the same error) as the
Heterogeneous-variant computation applied to the constant probability
vector `[p]*n` — for every capacity lattice, valid or not. -/
theorem c3_uniform_variant_matches_heterogeneous (n : ℕ) (d : ℚ) (r k : ℕ)
    (p : ℚ) (lattice : Option (List (List ℚ))) :
    computeUniform n d r k p lattice = compute (uniformCfg n d r k p) lattice := by
  unfold computeUniform compute
  simp only [uniformCfg_n, uniformCfg_d, uniformCfg_r, uniformCfg_k, uniformCfg_p]
  by_cases h1 : n < 1
  · rw [if_pos h1, if_pos h1]
  rw [if_neg h1, if_neg h1]
  by_cases h2 : d ≤ 0
  · rw [if_pos h2, if_pos h2]
  rw [if_neg h2, if_neg h2]
  rw [if_neg (show ¬ ((List.replicate n p).length ≠ n) by simp)]
  have hpcond : (∀ x ∈ List.replicate n p, 0 < x ∧ x ≤ 1) ↔ (0 < p ∧ p ≤ 1) := by
    rw [List.forall_mem_replicate]
    simp [show n ≠ 0 from by omega]
  by_cases h3 : 0 < p ∧ p ≤ 1
  swap
  · rw [if_pos h3, if_pos (fun hall => h3 (hpcond.mp hall))]
  rw [if_neg (not_not_intro h3), if_neg (not_not_intro (hpcond.mpr h3))]
  by_cases h4 : 2 ≤ r ∧ r ≤ n
  swap
  · rw [if_pos h4, if_pos h4]
  rw [if_neg (not_not_intro h4), if_neg (not_not_intro h4)]
  by_cases h5 : k ≤ r - 1
  swap
  · rw [if_pos h5, if_pos h5]
  rw [if_neg (not_not_intro h5), if_neg (not_not_intro h5)]
  rw [denom_replicate h4.1 h4.2 h5]
  by_cases h6 : denomU n k p ≤ 0
  · rw [if_pos h6, if_pos h6]
  rw [if_neg h6, if_neg h6]
  cases lattice with
  | none => rw [mkReport_replicate h4.1 h4.2 h5]
  | some latt =>
    rw [loads_replicate h4.1 h4.2 h5]
    show (match pickLevels 1 latt ((List.range n).map fun j => loadvalU n r k d p (j + 1)) with
      | .error i => Except.error (EngineError.capacityExceeded i)
      | .ok ys => Except.ok ⟨inputQtyU n k d p,
          (List.range n).map fun j => fGvalU n k d p (j + 1),
          (List.range n).map fun j => fRvalU n r k d p (j + 1),
          (List.range n).map fun j => loadvalU n r k d p (j + 1),
          some ys, p ^ n⟩) =
      match pickLevels 1 latt ((List.range n).map fun j => loadvalU n r k d p (j + 1)) with
      | .error i => Except.error (EngineError.capacityExceeded i)
      | .ok ys => Except.ok (mkReport (uniformCfg n d r k p) (some ys))
    cases hpl : pickLevels 1 latt ((List.range n).map fun j => loadvalU n r k d p (j + 1)) with
    | error i => rfl
    | ok ys => exact (congrArg Except.ok (mkReport_replicate h4.1 h4.2 h5 (some ys))).symm

/-- Claim C4: increasing one machine's success probability (holding all
other inputs fixed, and staying within the valid range) does not decrease
the computed system reliability.  Machine `j+1` is updated, `j` being the
0-based index into the probability vector. -/
theorem c4_reliability_monotone (cfg : NetworkConfig) (j : ℕ) (v : ℚ)
    (h : validCfg cfg) (hj : j < cfg.p.length) (hlo : cfg.p.getD j 0 ≤ v)
    (hhi : v ≤ 1) :
    ∃ rep rep', compute cfg none = .ok rep ∧
      compute ⟨cfg.n, cfg.d, cfg.r, cfg.k, cfg.p.set j v⟩ none = .ok rep' ∧
      rep.Rd ≤ rep'.Rd := by
  obtain ⟨hn, hd, hlen, hp, hr2, hrn, hk⟩ := h
  rw [List.getD_eq_getElem _ _ hj] at hlo
  have hpj : 0 < cfg.p[j] := (hp _ (List.getElem_mem hj)).1
  have hv : 0 < v := lt_of_lt_of_le hpj hlo
  have h' : validCfg ⟨cfg.n, cfg.d, cfg.r, cfg.k, cfg.p.set j v⟩ := by
    refine ⟨hn, hd, by simpa using hlen, ?_, hr2, hrn, hk⟩
    intro x hx
    rcases List.mem_or_eq_of_mem_set hx with hx' | rfl
    · exact hp x hx'
    · exact ⟨hv, hhi⟩
  refine ⟨mkReport cfg none, _, compute_ok ⟨hn, hd, hlen, hp, hr2, hrn, hk⟩,
    compute_ok h', ?_⟩
  show prodRange cfg.p 1 cfg.n ≤ prodRange (cfg.p.set j v) 1 cfg.n
  rw [prodRange_one_len hlen, prodRange_one_len (by simpa using hlen)]
  rw [List.prod_set, if_pos hj]
  conv_lhs => rw [← List.prod_take_mul_prod_drop cfg.p j,
    List.drop_eq_getElem_cons hj, List.prod_cons]
  have ht : 0 ≤ (cfg.p.take j).prod :=
    list_prod_nonneg fun x hx => le_of_lt (hp x (List.take_subset _ _ hx)).1
  have hdr : 0 ≤ (cfg.p.drop (j + 1)).prod :=
    list_prod_nonneg fun x hx => le_of_lt (hp x (List.drop_subset _ _ hx)).1
  nlinarith [mul_nonneg (mul_nonneg ht hdr) (sub_nonneg.mpr hlo)]

/-- Witness for C4: raising machine 2's probability from 0.95 to 0.97 in
the scenario configuration does not decrease the reliability. -/
theorem c4_reliability_monotone_witness : validCfg scenarioCfg ∧
    1 < scenarioCfg.p.length ∧ scenarioCfg.p.getD 1 0 ≤ 97 / 100 ∧
    (97 : ℚ) / 100 ≤ 1 ∧
    (∃ rep rep', compute scenarioCfg none = .ok rep ∧
      compute ⟨scenarioCfg.n, scenarioCfg.d, scenarioCfg.r, scenarioCfg.k,
        scenarioCfg.p.set 1 (97 / 100)⟩ none = .ok rep' ∧
      rep.Rd ≤ rep'.Rd) :=
  ⟨scenario_valid, by simp [scenarioCfg],
    by simp [scenarioCfg, List.replicate]; norm_num, by norm_num,
    c4_reliability_monotone scenarioCfg 1 (97 / 100) scenario_valid
      (by simp [scenarioCfg]) (by simp [scenarioCfg, List.replicate]; norm_num)
      (by norm_num)⟩

/-- Claim C5: for every valid configuration, the rework-path flow vector of
the report is zero at every machine index strictly below the re-entry
point `r-k`. -/
theorem c5_no_rework_flow_before_reentry (cfg : NetworkConfig)
    (h : validCfg cfg) :
    ∃ rep, compute cfg none = .ok rep ∧
      ∀ i, 1 ≤ i → i < cfg.r - cfg.k → rep.fR.getD (i - 1) 0 = 0 := by
  refine ⟨mkReport cfg none, compute_ok h, ?_⟩
  intro i h1 h2
  obtain ⟨hn, hd, hlen, hp, hr2, hrn, hk⟩ := h
  show (fRs cfg).getD (i - 1) 0 = 0
  rw [fRs_getD (show i - 1 < cfg.n by omega)]
  unfold fRval
  rw [if_neg (by omega)]

/-- Witness for C5: the scenario configuration (re-entry point `r-k = 3`)
has zero rework flow on machines 1 and 2. -/
theorem c5_no_rework_flow_before_reentry_witness : validCfg scenarioCfg ∧
    (∃ rep, compute scenarioCfg none = .ok rep ∧
      ∀ i, 1 ≤ i → i < scenarioCfg.r - scenarioCfg.k →
        rep.fR.getD (i - 1) 0 = 0) :=
  ⟨scenario_valid, c5_no_rework_flow_before_reentry scenarioCfg scenario_valid⟩

/-- Claim C6: `compute` always yields either a complete report or one of
the three specific errors, a precondition violation yields
`InvalidConfiguration` naming the offending field, and (by the shape of
`Except`) no partial result is ever produced. -/
theorem c6_error_taxonomy_total :
    (∀ (cfg : NetworkConfig) (lattice : Option (List (List ℚ))),
      ¬ validCfg cfg →
      ∃ f, compute cfg lattice = .error (.invalidConfiguration f)) ∧
    (∀ (cfg : NetworkConfig) (lattice : Option (List (List ℚ))),
      (∃ rep, compute cfg lattice = .ok rep) ∨
      (∃ f, compute cfg lattice = .error (.invalidConfiguration f)) ∨
      compute cfg lattice = .error .degenerateNetwork ∨
      (∃ i, compute cfg lattice = .error (.capacityExceeded i))) := by
  constructor
  · intro cfg lattice hinv
    unfold compute
    by_cases h1 : cfg.n < 1
    · exact ⟨"n", by rw [if_pos h1]⟩
    rw [if_neg h1]
    by_cases h2 : cfg.d ≤ 0
    · exact ⟨"d", by rw [if_pos h2]⟩
    rw [if_neg h2]
    by_cases h3 : cfg.p.length ≠ cfg.n
    · exact ⟨"p", by rw [if_pos h3]⟩
    rw [if_neg h3]
    by_cases h4 : ¬ (∀ x ∈ cfg.p, 0 < x ∧ x ≤ 1)
    · exact ⟨"p", by rw [if_pos h4]⟩
    rw [if_neg h4]
    by_cases h5 : ¬ (2 ≤ cfg.r ∧ cfg.r ≤ cfg.n)
    · exact ⟨"r", by rw [if_pos h5]⟩
    rw [if_neg h5]
    by_cases h6 : ¬ (cfg.k ≤ cfg.r - 1)
    · exact ⟨"k", by rw [if_pos h6]⟩
    exact absurd ⟨by omega, not_le.mp h2, not_not.mp h3, not_not.mp h4,
      (not_not.mp h5).1, (not_not.mp h5).2, not_not.mp h6⟩ hinv
  · intro cfg lattice
    cases hres : compute cfg lattice with
    | ok rep => exact Or.inl ⟨rep, rfl⟩
    | error e =>
      cases e with
      | invalidConfiguration f => exact Or.inr (Or.inl ⟨f, rfl⟩)
      | degenerateNetwork => exact Or.inr (Or.inr (Or.inl rfl))
      | capacityExceeded i => exact Or.inr (Or.inr (Or.inr ⟨i, rfl⟩))

/-- Witness for C6: a configuration with `r = 6 > n = 5` violates the
preconditions and fails with `InvalidConfiguration`. -/
theorem c6_error_taxonomy_total_witness : ¬ validCfg badCfg ∧
    (∃ f, compute badCfg none = .error (.invalidConfiguration f)) :=
  ⟨badCfg_not_valid, c6_error_taxonomy_total.1 badCfg none badCfg_not_valid⟩

/-- Claim C7: the availability grade of tab3 and the advice branch of tab4
are the high classification exactly when `R_d > 0.9`, the medium
classification exactly when `0.7 < R_d ≤ 0.9`, and the low classification
otherwise. -/
theorem c7_guidance_thresholds (R : ℚ) :
    (availability R = "高" ↔ 9 / 10 < R) ∧
    (availability R = "中等" ↔ 7 / 10 < R ∧ R ≤ 9 / 10) ∧
    (availability R = "低" ↔ R ≤ 7 / 10) ∧
    (advice R = .success ↔ 9 / 10 < R) ∧
    (advice R = .warning ↔ 7 / 10 < R ∧ R ≤ 9 / 10) ∧
    (advice R = .error ↔ R ≤ 7 / 10) := by
  unfold availability advice
  by_cases h1 : R > 9 / 10
  · rw [if_pos h1, if_pos h1]
    refine ⟨⟨fun _ => h1, fun _ => rfl⟩,
      ⟨fun h => absurd h (by decide), fun h => absurd h1 (not_lt.mpr h.2)⟩,
      ⟨fun h => absurd h (by decide), fun h => absurd h1 (not_lt.mpr (by linarith))⟩,
      ⟨fun _ => h1, fun _ => rfl⟩,
      ⟨fun h => absurd h (by decide), fun h => absurd h1 (not_lt.mpr h.2)⟩,
      ⟨fun h => absurd h (by decide), fun h => absurd h1 (not_lt.mpr (by linarith))⟩⟩
  · rw [if_neg h1, if_neg h1]
    by_cases h2 : R > 7 / 10
    · rw [if_pos h2, if_pos h2]
      refine ⟨⟨fun h => absurd h (by decide), fun h => absurd h h1⟩,
        ⟨fun _ => ⟨h2, not_lt.mp h1⟩, fun _ => rfl⟩,
        ⟨fun h => absurd h (by decide), fun h => absurd h2 (not_lt.mpr h)⟩,
        ⟨fun h => absurd h (by decide), fun h => absurd h h1⟩,
        ⟨fun _ => ⟨h2, not_lt.mp h1⟩, fun _ => rfl⟩,
        ⟨fun h => absurd h (by decide), fun h => absurd h2 (not_lt.mpr h)⟩⟩
    · rw [if_neg h2, if_neg h2]
      refine ⟨⟨fun h => absurd h (by decide), fun h => absurd h h1⟩,
        ⟨fun h => absurd h (by decide), fun h => absurd h.1 h2⟩,
        ⟨fun _ => not_lt.mp h2, fun _ => rfl⟩,
        ⟨fun h => absurd h (by decide), fun h => absurd h h1⟩,
        ⟨fun h => absurd h (by decide), fun h => absurd h.1 h2⟩,
        ⟨fun _ => not_lt.mp h2, fun _ => rfl⟩⟩

/-- Claim C8: two runs differing only in the probability slider values
display the same system reliability, and in both model variants that value
is `0.95 ^ n_machines`, independent of every slider. -/
theorem c8_reliability_ignores_sliders (m : ModelType) (n : ℕ)
    (pc pc' : ℚ) (ps ps' : List ℚ) :
    system_reliability m pc ps n = system_reliability m pc' ps' n ∧
    system_reliability m pc ps n = (95 / 100) ^ n := by
  cases m <;> exact ⟨rfl, rfl⟩

/-- Claim C9: every configuration constructible through the sidebar widgets
satisfies the spec's preconditions, the rework range `[r-k, r]` is
contained in `[1, n]`, and `InvalidConfiguration` is unreachable from the
user interface, in both model variants and for every capacity lattice. -/
theorem c9_widget_configs_valid (d : ℚ) (n r k : ℕ) (pc : ℚ) (ps : List ℚ)
    (h : widgetConstructible d n r k pc ps) :
    (1 ≤ r - k ∧ r ≤ n) ∧
    validCfg ⟨n, d, r, k, ps⟩ ∧ validCfg (uniformCfg n d r k pc) ∧
    (∀ (lattice : Option (List (List ℚ))) (f : String),
      compute ⟨n, d, r, k, ps⟩ lattice ≠ .error (.invalidConfiguration f)) ∧
    (∀ (lattice : Option (List (List ℚ))) (f : String),
      compute (uniformCfg n d r k pc) lattice ≠ .error (.invalidConfiguration f)) := by
  obtain ⟨hd, hn, hr2, hrn, hk, hpc, hlen, hps⟩ := h
  have hv1 : validCfg ⟨n, d, r, k, ps⟩ :=
    ⟨hn, by linarith, hlen,
      fun x hx => ⟨by linarith [(hps x hx).1], (hps x hx).2⟩, hr2, hrn, hk⟩
  have hv2 : validCfg (uniformCfg n d r k pc) := by
    refine ⟨hn, show (0 : ℚ) < d by linarith, by simp [uniformCfg], ?_,
      hr2, hrn, hk⟩
    intro x hx
    rw [List.eq_of_mem_replicate (show x ∈ List.replicate n pc from hx)]
    exact ⟨by linarith, hpc.2⟩
  exact ⟨⟨by omega, hrn⟩, hv1, hv2,
    fun latt f => compute_not_invalid hv1 latt f,
    fun latt f => compute_not_invalid hv2 latt f⟩

/-- Witness for C9: the source's default widget values (`d=150`, `n=5`,
`r=4`, `k=1`, `p_common=0.95`, Model II sliders all 0.9). -/
theorem c9_widget_configs_valid_witness :
    widgetConstructible 150 5 4 1 (19 / 20) (List.replicate 5 (9 / 10)) ∧
    ((1 ≤ 4 - 1 ∧ 4 ≤ 5) ∧
    validCfg ⟨5, 150, 4, 1, List.replicate 5 (9 / 10)⟩ ∧
    validCfg (uniformCfg 5 150 4 1 (19 / 20)) ∧
    (∀ (lattice : Option (List (List ℚ))) (f : String),
      compute ⟨5, 150, 4, 1, List.replicate 5 (9 / 10)⟩ lattice ≠
        .error (.invalidConfiguration f)) ∧
    (∀ (lattice : Option (List (List ℚ))) (f : String),
      compute (uniformCfg 5 150 4 1 (19 / 20)) lattice ≠
        .error (.invalidConfiguration f))) :=
  ⟨widget_example,
    c9_widget_configs_valid 150 5 4 1 (19 / 20) (List.replicate 5 (9 / 10))
      widget_example⟩

/-- Claim C10: the bar-chart values equal
`system_reliability * (0.9 + 0.1*i/n_machines)` for `i = 0..n_machines-1`,
are strictly increasing in the machine index, and do not depend on any
probability slider. -/
theorem c10_chart_values (m : ModelType) (pc pc' : ℚ) (ps ps' : List ℚ)
    (n : ℕ) :
    (∀ i, i < n → (chart_values m pc ps n).getD i 0
        = system_reliability m pc ps n * (9 / 10 + 1 / 10 * i / n)) ∧
    (∀ i j, i < j → j < n →
      (chart_values m pc ps n).getD i 0 < (chart_values m pc ps n).getD j 0) ∧
    chart_values m pc ps n = chart_values m pc' ps' n := by
  have hget : ∀ i, i < n → (chart_values m pc ps n).getD i 0
      = system_reliability m pc ps n * (9 / 10 + 1 / 10 * i / n) := by
    intro i hi
    unfold chart_values reliability_values
    have hlen : i < (List.map
        (fun i : ℕ => system_reliability m pc ps n * (9 / 10 + 1 / 10 * i / n))
        (List.range n)).length := by
      rw [List.length_map, List.length_range]; exact hi
    rw [List.getD_eq_getElem _ _ hlen, List.getElem_map, List.getElem_range]
  refine ⟨hget, ?_, ?_⟩
  · intro i j hij hjn
    rw [hget i (by omega), hget j hjn]
    have hpos : 0 < system_reliability m pc ps n := by
      cases m <;> exact pow_pos (by norm_num) n
    have hn : (0 : ℚ) < n := by
      have : 0 < n := by omega
      exact_mod_cast this
    have hcast : (i : ℚ) < j := by exact_mod_cast hij
    have hstep : 9 / 10 + 1 / 10 * (i : ℚ) / n < 9 / 10 + 1 / 10 * (j : ℚ) / n := by
      gcongr
    exact mul_lt_mul_of_pos_left hstep hpos
  · cases m <;> rfl

/-- Witness for C10: in a five-machine run the second chart bar is strictly
below the third. -/
theorem c10_chart_values_witness : (1 : ℕ) < 2 ∧ (2 : ℕ) < 5 ∧
    (chart_values .modelI (19 / 20) [] 5).getD 1 0 <
      (chart_values .modelI (19 / 20) [] 5).getD 2 0 :=
  ⟨by norm_num, by norm_num,
    (c10_chart_values .modelI (19 / 20) (19 / 20) [] [] 5).2.1 1 2
      (by norm_num) (by norm_num)⟩

end MfgDash
